import Mathlib

/-!
Shallow embedding of `src/index.ts` (the ICP product-review canister).

The registry state is the `StableBTreeMap<string, Product>` named
`productStorage` in the source; it is modelled as a key-sorted association
list (a BTreeMap stores entries in key order, with unique keys).  JavaScript
`number` values (ratings, averages) are modelled as exact rationals `ℚ`;
`nat64` timestamps as `ℕ`; Candid `text` as `String`; `Opt` as `Option`.
The injected capabilities (the uuid generator and `ic.time()`) are passed to
the operations as explicit arguments `newId` / `now`.

An operation of the source returns `Result<T, string>`; `rateProduct` can in
addition let an exception escape (its `validateRating` call sits before the
`try` block), so results are modelled by a three-way sum `CallResult`:
`ok`, `err` (a returned `Result.Err`) and `thrown` (an uncaught exception).
Stateful operations return the `CallResult` paired with the new storage.
-/

/-- The `Product` record of `src/index.ts` (lines 20–28). -/
structure Product where
  id : String
  name : String
  description : String
  URL : String
  Ratings : List ℚ
  created_at : ℕ
  updated_at : Option ℕ
deriving Repr, DecidableEq

/-- The `ProductPayload` record of `src/index.ts` (lines 31–35). -/
structure ProductPayload where
  name : String
  description : String
  URL : String
deriving Repr, DecidableEq

/-- The outcome of calling an exported canister method: a returned
`Result.Ok`, a returned `Result.Err`, or an exception that escaped the
method uncaught. -/
inductive CallResult (α : Type) where
  | ok (value : α)
  | err (message : String)
  | thrown (message : String)
deriving Repr, DecidableEq

/-- The state of `productStorage`: entries of the stable B-tree map in key
order. -/
abbrev Storage : Type := List (String × Product)

/-- `productStorage.get(k)`. -/
def storageGet (st : Storage) (k : String) : Option Product :=
  match st with
  | [] => none
  | (k₀, v) :: rest => if k = k₀ then some v else storageGet rest k

/-- `productStorage.insert(k, v)`: replace the entry with key `k`, or place a
new entry at its key-ordered position. -/
def storageInsert (k : String) (v : Product) : Storage → Storage
  | [] => [(k, v)]
  | (k₀, v₀) :: rest =>
    if k < k₀ then (k, v) :: (k₀, v₀) :: rest
    else if k = k₀ then (k, v) :: rest
    else (k₀, v₀) :: storageInsert k v rest

/-- `productStorage.remove(k)`: the removed value (if any) and the remaining
entries. -/
def storageRemove (k : String) : Storage → Option Product × Storage
  | [] => (none, [])
  | (k₀, v) :: rest =>
    if k = k₀ then (some v, rest)
    else
      let r := storageRemove k rest
      (r.1, (k₀, v) :: r.2)

/-- `productStorage.values()`: the stored products in the storage's native
(key) order. -/
def storageValues (st : Storage) : List Product :=
  st.map Prod.snd

/-- `getProducts` (`src/index.ts` lines 57–63): an empty registry is
reported as the failure "No products found". -/
def getProducts (st : Storage) : CallResult (List Product) :=
  if st.isEmpty then CallResult.err "No products found"
  else CallResult.ok (storageValues st)

/-- `getProduct` (`src/index.ts` lines 67–84).  `!id` is true exactly for
the empty string; the `try` around `productStorage.get` never fires in the
storage model (the storage collaborator is synchronous and non-throwing). -/
def getProduct (st : Storage) (id : String) : CallResult Product :=
  if id = "" then CallResult.err "Invalid id"
  else
    match storageGet st id with
    | some p => CallResult.ok p
    | none => CallResult.err ("a product with id=" ++ id ++ " not found")

/-- `addProduct` (`src/index.ts` lines 88–119).  `newId` is the string
produced by the injected `uuidv4()` generator and `now` the value of
`ic.time()`. -/
def addProduct (newId : String) (now : ℕ) (payload : ProductPayload)
    (st : Storage) : CallResult Product × Storage :=
  if payload.name = "" ∨ payload.description = "" ∨ payload.URL = "" then
    (CallResult.err "Missing required fields", st)
  else if (storageValues st).any (fun p => p.name == payload.name) then
    (CallResult.err "Product with the same name already exists", st)
  else
    let product : Product :=
      { id := newId
        name := payload.name
        description := payload.description
        URL := payload.URL
        Ratings := []
        created_at := now
        updated_at := none }
    (CallResult.ok product, storageInsert product.id product st)

/-- `validateRating` (`src/index.ts` lines 123–127): `some message` models
the thrown `Error`, `none` a normal return.  Only the range is checked; the
message speaks of an integer but no integrality test is performed. -/
def validateRating (rating : ℚ) : Option String :=
  if rating < 1 ∨ rating > 5 then
    some "Rating should be an integer between 1 and 5."
  else none

/-- The guard `id === null || id === undefined` of `calculateAverageRating`:
a Candid `text` argument is a string and is never `null` or `undefined`, so
the guard never fires; in particular it does not fire on `""`. -/
def isNullOrUndefined (_id : String) : Bool := false

/-- `Number.prototype.toFixed(2)` followed by `parseFloat`, on the exact
rational value: round to the nearest multiple of 1/100, half away from zero
upward (ECMA-262 picks the larger candidate on a tie). -/
def toFixed2 (x : ℚ) : ℚ := ((round (x * 100) : ℤ) : ℚ) / 100

/-- `calculateAverageRating` (`src/index.ts` lines 130–155). -/
def calculateAverageRating (st : Storage) (id : String) : CallResult ℚ :=
  if isNullOrUndefined id then CallResult.err "Invalid product id"
  else
    match storageGet st id with
    | some product =>
      if product.Ratings.length = 0 then CallResult.err "Invalid rating"
      else
        let sum := product.Ratings.foldl (fun acc current => acc + current) 0
        CallResult.ok (toFixed2 (sum / (product.Ratings.length : ℚ)))
    | none =>
      CallResult.err ("couldn't find product with id=" ++ id ++
        ". product not found")

/-- `rateProduct` (`src/index.ts` lines 160–186).  The `validateRating`
call stands before the `try` block, so an out-of-range rating makes the
exception escape `rateProduct` uncaught (`thrown`), leaving the storage
untouched. -/
def rateProduct (now : ℕ) (id : String) (rating : ℚ) (st : Storage) :
    CallResult Product × Storage :=
  match validateRating rating with
  | some msg => (CallResult.thrown msg, st)
  | none =>
    match storageGet st id with
    | some product =>
      let updatedProduct : Product :=
        { product with
          Ratings := product.Ratings ++ [rating]
          updated_at := some now }
      (CallResult.ok updatedProduct, storageInsert id updatedProduct st)
    | none => (CallResult.err "Product not found.", st)

/-- `updateProduct` (`src/index.ts` lines 190–215).  The payload spread
overwrites `name`, `description` and `URL` only; the re-insert uses the
stored record's `id` field as key. -/
def updateProduct (now : ℕ) (id : String) (payload : ProductPayload)
    (st : Storage) : CallResult Product × Storage :=
  if payload.name = "" ∨ payload.description = "" ∨ payload.URL = "" then
    (CallResult.err "Missing required fields", st)
  else
    match storageGet st id with
    | some product =>
      let updatedProduct : Product :=
        { product with
          name := payload.name
          description := payload.description
          URL := payload.URL
          updated_at := some now }
      (CallResult.ok updatedProduct,
        storageInsert product.id updatedProduct st)
    | none =>
      (CallResult.err ("couldn't update a product with id=" ++ id ++
        ". product not found"), st)

/-- `deleteProduct` (`src/index.ts` lines 219–227). -/
def deleteProduct (id : String) (st : Storage) :
    CallResult Product × Storage :=
  let r := storageRemove id st
  match r.1 with
  | some deletedProduct => (CallResult.ok deletedProduct, r.2)
  | none =>
    (CallResult.err ("couldn't delete a product with id=" ++ id ++
      ". product not found."), st)

/-!  Invariants and reachable states. -/

/-- Every entry's `id` field equals the key it is stored under. -/
def KeysMatch (st : Storage) : Prop :=
  ∀ e ∈ st, (e : String × Product).2.id = e.1

/-- Every stored rating lies in the inclusive range [1,5]. -/
def RatingsInRange (st : Storage) : Prop :=
  ∀ e ∈ st, ∀ r ∈ (e : String × Product).2.Ratings, 1 ≤ r ∧ r ≤ 5

/-- Every stored rating is an integer-valued score in [1,5] (the wording of
the data-model invariant and glossary of the spec). -/
def RatingsIntegerInRange (st : Storage) : Prop :=
  ∀ e ∈ st, ∀ r ∈ (e : String × Product).2.Ratings,
    (∃ n : ℤ, r = (n : ℚ)) ∧ 1 ≤ r ∧ r ≤ 5

/-- The storage keys are pairwise distinct (a B-tree map holds one entry per
key). -/
def KeysNodup (st : Storage) : Prop :=
  (st.map Prod.fst).Nodup

/-- The registry states reachable from the initial empty map through the
exported mutating operations, for arbitrary injected uuids, times, payloads
and arguments. -/
inductive Reachable : Storage → Prop where
  | init : Reachable []
  | add (newId : String) (now : ℕ) (payload : ProductPayload) (st : Storage) :
      Reachable st → Reachable (addProduct newId now payload st).2
  | update (now : ℕ) (id : String) (payload : ProductPayload) (st : Storage) :
      Reachable st → Reachable (updateProduct now id payload st).2
  | rate (now : ℕ) (id : String) (rating : ℚ) (st : Storage) :
      Reachable st → Reachable (rateProduct now id rating st).2
  | del (id : String) (st : Storage) :
      Reachable st → Reachable (deleteProduct id st).2

/-!  Concrete sample data, used by witnesses and counterexamples. -/

/-- The payload of the worked example in the spec (§8). -/
def chairPayload : ProductPayload :=
  { name := "Chair", description := "Wooden chair", URL := "http://x/1.png" }

/-- The product the example payload creates under uuid "p1" at time 0. -/
def chairProduct : Product :=
  { id := "p1", name := "Chair", description := "Wooden chair",
    URL := "http://x/1.png", Ratings := [], created_at := 0,
    updated_at := none }

/-!  Lemmas about the storage model. -/

theorem storageGet_insert_self (k : String) (v : Product) (st : Storage) :
    storageGet (storageInsert k v st) k = some v := by
  induction st with
  | nil => simp [storageInsert, storageGet]
  | cons head tail ih =>
    obtain ⟨k₀, v₀⟩ := head
    by_cases h1 : k < k₀
    · simp [storageInsert, h1, storageGet]
    · by_cases h2 : k = k₀
      · simp [storageInsert, h1, h2, storageGet]
      · simp [storageInsert, h1, h2, storageGet, ih]

theorem storageGet_insert_ne (k k₀ : String) (v : Product) (st : Storage)
    (h : k ≠ k₀) : storageGet (storageInsert k₀ v st) k = storageGet st k := by
  induction st with
  | nil => simp [storageInsert, storageGet, h]
  | cons head tail ih =>
    obtain ⟨k₁, v₁⟩ := head
    by_cases h1 : k₀ < k₁
    · simp [storageInsert, h1, storageGet, h]
    · by_cases h2 : k₀ = k₁
      · subst h2
        simp [storageInsert, h1, storageGet, h]
      · simp [storageInsert, h1, h2, storageGet, ih]

theorem mem_storageInsert (e : String × Product) (k : String) (v : Product)
    (st : Storage) (h : e ∈ storageInsert k v st) : e = (k, v) ∨ e ∈ st := by
  induction st with
  | nil => simpa [storageInsert] using h
  | cons head tail ih =>
    obtain ⟨k₁, v₁⟩ := head
    by_cases h1 : k < k₁
    · simp only [storageInsert, if_pos h1, List.mem_cons] at h ⊢
      tauto
    · by_cases h2 : k = k₁
      · simp only [storageInsert, if_neg h1, if_pos h2, List.mem_cons] at h ⊢
        tauto
      · simp only [storageInsert, if_neg h1, if_neg h2, List.mem_cons] at h ⊢
        rcases h with h | h
        · tauto
        · rcases ih h with h' | h' <;> tauto

theorem mem_storageRemove (e : String × Product) (k : String) (st : Storage)
    (h : e ∈ (storageRemove k st).2) : e ∈ st := by
  induction st with
  | nil => simp [storageRemove] at h
  | cons head tail ih =>
    obtain ⟨k₁, v₁⟩ := head
    by_cases h1 : k = k₁
    · simp only [storageRemove, if_pos h1] at h
      exact List.mem_cons_of_mem _ h
    · simp only [storageRemove, if_neg h1, List.mem_cons] at h
      rcases h with h | h
      · simp [h]
      · exact List.mem_cons_of_mem _ (ih h)

theorem storageRemove_of_get_none (k : String) (st : Storage)
    (h : storageGet st k = none) : storageRemove k st = (none, st) := by
  induction st with
  | nil => simp [storageRemove]
  | cons head tail ih =>
    obtain ⟨k₁, v₁⟩ := head
    by_cases h1 : k = k₁
    · simp [storageGet, h1] at h
    · simp only [storageGet, if_neg h1] at h
      simp [storageRemove, h1, ih h]

theorem storageRemove_fst_of_get (k : String) (st : Storage) (p : Product)
    (h : storageGet st k = some p) : (storageRemove k st).1 = some p := by
  induction st with
  | nil => simp [storageGet] at h
  | cons head tail ih =>
    obtain ⟨k₁, v₁⟩ := head
    by_cases h1 : k = k₁
    · simp only [storageGet, if_pos h1, Option.some.injEq] at h
      simp [storageRemove, h1, h]
    · simp only [storageGet, if_neg h1] at h
      simp [storageRemove, h1, ih h]

theorem storageGet_none_of_not_mem_keys (k : String) (st : Storage)
    (h : k ∉ st.map Prod.fst) : storageGet st k = none := by
  induction st with
  | nil => simp [storageGet]
  | cons head tail ih =>
    obtain ⟨k₁, v₁⟩ := head
    simp only [List.map_cons, List.mem_cons] at h
    push_neg at h
    simp [storageGet, h.1, ih h.2]

theorem storageGet_remove_self (k : String) (st : Storage)
    (hnd : KeysNodup st) : storageGet (storageRemove k st).2 k = none := by
  induction st with
  | nil => simp [storageRemove, storageGet]
  | cons head tail ih =>
    obtain ⟨k₁, v₁⟩ := head
    rw [KeysNodup, List.map_cons, List.nodup_cons] at hnd
    by_cases h1 : k = k₁
    · subst h1
      simp only [storageRemove, if_pos rfl]
      exact storageGet_none_of_not_mem_keys _ _ hnd.1
    · simp [storageRemove, h1, storageGet, ih hnd.2]

theorem foldl_add_eq_sum (l : List ℚ) :
    ∀ a : ℚ, List.foldl (fun acc current => acc + current) a l = a + l.sum := by
  induction l with
  | nil => intro a; simp
  | cons x xs ih =>
    intro a
    simp only [List.foldl_cons, List.sum_cons, ih]
    ring

/-!  Claim theorems. -/

/-- C1: in the source, `rateProduct` calls `validateRating` before its
`try` block, so an out-of-range rating does not produce a returned
`Result.Err`: the `Error` escapes `rateProduct` uncaught.  The registry is
left unchanged.  Shown here at rating 0 and rating 6 against a singleton
registry. -/
theorem rateProduct_out_of_range_throws_uncaught :
    rateProduct 7 "p1" 0 [("p1", chairProduct)] =
      (CallResult.thrown "Rating should be an integer between 1 and 5.",
        [("p1", chairProduct)]) ∧
    rateProduct 7 "p1" 6 [("p1", chairProduct)] =
      (CallResult.thrown "Rating should be an integer between 1 and 5.",
        [("p1", chairProduct)]) := by
  constructor <;> decide

/-- C2: `calculateAverageRating` guards only `id === null || id ===
undefined`; a Candid string is neither, so the empty id falls through to
the storage lookup and is reported as NotFound ("couldn't find product
..."), not as the InvalidInput failure "Invalid product id". -/
theorem calculateAverageRating_empty_id_not_found :
    calculateAverageRating [] "" =
      CallResult.err "couldn't find product with id=. product not found" ∧
    calculateAverageRating [] "" ≠ CallResult.err "Invalid product id" := by
  constructor <;> decide

/-- C9: `getProducts` on an empty registry returns the failure
"No products found"; otherwise it returns all stored products in the
storage's native (key) order. -/
theorem getProducts_spec (st : Storage) :
    (st = [] → getProducts st = CallResult.err "No products found") ∧
    (st ≠ [] → getProducts st = CallResult.ok (storageValues st)) := by
  constructor
  · intro h
    subst h
    rfl
  · intro h
    rw [getProducts, if_neg]
    simpa [List.isEmpty_iff] using h

/-- Witness for C9, at the empty registry and at a one-entry registry. -/
theorem getProducts_spec_witness :
    getProducts [] = CallResult.err "No products found" ∧
    getProducts [("p1", chairProduct)] =
      CallResult.ok (storageValues [("p1", chairProduct)]) :=
  ⟨(getProducts_spec []).1 rfl,
   (getProducts_spec [("p1", chairProduct)]).2 (by simp)⟩

/-- C6: `addProduct` fails with "Missing required fields" (InvalidInput)
when any payload field is empty, and with "Product with the same name
already exists" (Conflict) when a stored product has the exact same name;
in both cases the registry is returned unchanged. -/
theorem addProduct_rejects (newId : String) (now : ℕ)
    (payload : ProductPayload) (st : Storage) :
    ((payload.name = "" ∨ payload.description = "" ∨ payload.URL = "") →
      addProduct newId now payload st =
        (CallResult.err "Missing required fields", st)) ∧
    (payload.name ≠ "" → payload.description ≠ "" → payload.URL ≠ "" →
      (∃ p ∈ storageValues st, p.name = payload.name) →
      addProduct newId now payload st =
        (CallResult.err "Product with the same name already exists", st)) := by
  constructor
  · intro h
    rw [addProduct, if_pos h]
  · intro h1 h2 h3 hex
    have hany : (storageValues st).any (fun p => p.name == payload.name) = true := by
      rcases hex with ⟨p, hp, hname⟩
      exact List.any_eq_true.mpr ⟨p, hp, by simpa using hname⟩
    rw [addProduct, if_neg (by tauto), if_pos hany]

/-- Witness for C6: an empty name, and a duplicate of the stored name
"Chair"; the registry is unchanged in both cases. -/
theorem addProduct_rejects_witness :
    addProduct "p2" 3 { name := "", description := "d", URL := "u" }
        [("p1", chairProduct)] =
      (CallResult.err "Missing required fields", [("p1", chairProduct)]) ∧
    addProduct "p2" 3 { name := "Chair", description := "d", URL := "u" }
        [("p1", chairProduct)] =
      (CallResult.err "Product with the same name already exists",
        [("p1", chairProduct)]) :=
  ⟨(addProduct_rejects _ _ _ _).1 (Or.inl rfl),
   (addProduct_rejects _ _ _ _).2 (by decide) (by decide) (by decide)
     ⟨chairProduct, by decide, rfl⟩⟩

/-- C8: `deleteProduct` on an absent id fails with the NotFound message and
leaves the registry unchanged; on a present id it removes and returns the
stored product, after which `getProduct` on that id fails with its NotFound
message.  `KeysNodup` holds of every B-tree map state (one entry per key);
`id ≠ ""` keeps `getProduct` from reporting its InvalidInput case instead
(only non-empty uuid keys ever hold a record). -/
theorem deleteProduct_spec (id : String) (st : Storage) :
    (storageGet st id = none →
      deleteProduct id st =
        (CallResult.err ("couldn't delete a product with id=" ++ id ++
          ". product not found."), st)) ∧
    (∀ p : Product, storageGet st id = some p → KeysNodup st → id ≠ "" →
      deleteProduct id st = (CallResult.ok p, (storageRemove id st).2) ∧
      getProduct (deleteProduct id st).2 id =
        CallResult.err ("a product with id=" ++ id ++ " not found")) := by
  constructor
  · intro h
    simp [deleteProduct, storageRemove_of_get_none _ _ h]
  · intro p hget hnd hid
    have h1 : (storageRemove id st).1 = some p :=
      storageRemove_fst_of_get _ _ _ hget
    have hdel : deleteProduct id st = (CallResult.ok p, (storageRemove id st).2) := by
      simp [deleteProduct, h1]
    refine ⟨hdel, ?_⟩
    rw [hdel]
    simp only [getProduct, if_neg hid]
    rw [storageGet_remove_self _ _ hnd]

/-- Witness for C8: deleting an absent id fails NotFound; deleting the
stored "p1" returns it and a following `getProduct "p1"` fails NotFound. -/
theorem deleteProduct_spec_witness :
    deleteProduct "p9" [("p1", chairProduct)] =
      (CallResult.err "couldn't delete a product with id=p9. product not found.",
        [("p1", chairProduct)]) ∧
    deleteProduct "p1" [("p1", chairProduct)] =
      (CallResult.ok chairProduct, []) ∧
    getProduct (deleteProduct "p1" [("p1", chairProduct)]).2 "p1" =
      CallResult.err "a product with id=p1 not found" := by
  have h2 := (deleteProduct_spec "p1" [("p1", chairProduct)]).2 chairProduct
    (by decide) (by rw [KeysNodup]; decide) (by decide)
  exact ⟨by simpa using (deleteProduct_spec "p9" [("p1", chairProduct)]).1 (by decide),
    by simpa using h2.1, h2.2⟩

/-- C3: for a stored product with non-empty `Ratings`,
`calculateAverageRating` returns the arithmetic mean of all its ratings
rounded to 2 decimal places (`toFixed2`); with empty `Ratings` it fails
with the InvalidInput message "Invalid rating".  Rating a fresh product n
times with in-range values r1..rn leaves exactly those values stored, so
the result then equals round(mean(r1..rn), 2). -/
theorem calculateAverageRating_mean (st : Storage) (id : String) (p : Product)
    (h : storageGet st id = some p) :
    (p.Ratings ≠ [] →
      calculateAverageRating st id =
        CallResult.ok (toFixed2 (p.Ratings.sum / (p.Ratings.length : ℚ)))) ∧
    (p.Ratings = [] →
      calculateAverageRating st id = CallResult.err "Invalid rating") := by
  constructor
  · intro hne
    have hlen : ¬ p.Ratings.length = 0 := by
      simpa [List.length_eq_zero] using hne
    simp only [calculateAverageRating, isNullOrUndefined, Bool.false_eq_true,
      if_false, h, if_neg hlen]
    rw [foldl_add_eq_sum, zero_add]
  · intro he
    simp [calculateAverageRating, isNullOrUndefined, h, he]

/-- The example product once rated with 4 and then 2 (spec §8 example). -/
def ratedChair : Product := { chairProduct with Ratings := [4, 2] }

/-- Witness for C3: ratings 4 and 2 average to 3 (the spec example
`averageRating(P) == 3.00`). -/
theorem calculateAverageRating_mean_witness :
    calculateAverageRating [("p1", ratedChair)] "p1" = CallResult.ok 3 := by
  have h := (calculateAverageRating_mean [("p1", ratedChair)] "p1" ratedChair
    (by decide)).1 (by decide)
  rw [h]
  norm_num [ratedChair, chairProduct, toFixed2, round_eq]

/-- C4: with non-empty fields, a name no stored product carries, and a
fresh non-empty uuid (the generator contract), `addProduct` returns the
created product — id the fresh uuid, empty `Ratings`, `created_at` the
current time, `updated_at` absent — inserts exactly that record, leaves
every other key unchanged, and a following `getProduct` on the returned id
returns an equal record. -/
theorem addProduct_insert_get_roundtrip (newId : String) (now : ℕ)
    (payload : ProductPayload) (st : Storage)
    (hid : newId ≠ "") (_hfresh : storageGet st newId = none)
    (hn : payload.name ≠ "") (hd : payload.description ≠ "")
    (hu : payload.URL ≠ "")
    (hdup : ∀ p ∈ storageValues st, p.name ≠ payload.name) :
    addProduct newId now payload st =
      (CallResult.ok
        ⟨newId, payload.name, payload.description, payload.URL, [], now, none⟩,
       storageInsert newId
        ⟨newId, payload.name, payload.description, payload.URL, [], now, none⟩
        st) ∧
    getProduct (addProduct newId now payload st).2 newId =
      CallResult.ok
        ⟨newId, payload.name, payload.description, payload.URL, [], now, none⟩ ∧
    (∀ k : String, k ≠ newId →
      storageGet (addProduct newId now payload st).2 k = storageGet st k) := by
  have hany : (storageValues st).any (fun p => p.name == payload.name) = false := by
    rw [List.any_eq_false]
    intro p hp
    simpa using hdup p hp
  have hadd : addProduct newId now payload st =
      (CallResult.ok
        ⟨newId, payload.name, payload.description, payload.URL, [], now, none⟩,
       storageInsert newId
        ⟨newId, payload.name, payload.description, payload.URL, [], now, none⟩
        st) := by
    rw [addProduct, if_neg (by tauto), hany]
    simp
  refine ⟨hadd, ?_, ?_⟩
  · rw [hadd]
    simp only [getProduct, if_neg hid]
    rw [storageGet_insert_self]
  · intro k hk
    rw [hadd]
    exact storageGet_insert_ne _ _ _ _ hk

/-- Witness for C4: adding the example payload to the empty registry under
uuid "p1" at time 0 creates `chairProduct`, and `getProduct "p1"` returns
it. -/
theorem addProduct_insert_get_roundtrip_witness :
    addProduct "p1" 0 chairPayload [] =
      (CallResult.ok chairProduct, [("p1", chairProduct)]) ∧
    getProduct (addProduct "p1" 0 chairPayload []).2 "p1" =
      CallResult.ok chairProduct := by
  have h := addProduct_insert_get_roundtrip "p1" 0 chairPayload []
    (by decide) (by decide) (by decide) (by decide) (by decide)
    (by intro p hp; simp [storageValues] at hp)
  exact ⟨by simpa [chairPayload, chairProduct, storageInsert] using h.1,
    by simpa [chairPayload, chairProduct] using h.2.1⟩

/-- C7: updating an existing record with a non-empty payload keeps its
`Ratings`, `created_at` and `id`, overwrites `name`/`description`/`URL`
with the payload values, stamps `updated_at` with the current time,
re-inserts under the same id, and leaves every other stored product
unchanged.  `p.id = id` is the storage-key invariant (claim C10), which
holds in every reachable state. -/
theorem updateProduct_frame (now : ℕ) (id : String)
    (payload : ProductPayload) (st : Storage) (p : Product)
    (hget : storageGet st id = some p) (hkey : p.id = id)
    (hn : payload.name ≠ "") (hd : payload.description ≠ "")
    (hu : payload.URL ≠ "") :
    updateProduct now id payload st =
      (CallResult.ok
        { p with
          name := payload.name
          description := payload.description
          URL := payload.URL
          updated_at := some now },
       storageInsert id
        { p with
          name := payload.name
          description := payload.description
          URL := payload.URL
          updated_at := some now } st) ∧
    storageGet (updateProduct now id payload st).2 id =
      some
        { p with
          name := payload.name
          description := payload.description
          URL := payload.URL
          updated_at := some now } ∧
    (∀ k : String, k ≠ id →
      storageGet (updateProduct now id payload st).2 k = storageGet st k) := by
  have hupd : updateProduct now id payload st =
      (CallResult.ok
        { p with
          name := payload.name
          description := payload.description
          URL := payload.URL
          updated_at := some now },
       storageInsert id
        { p with
          name := payload.name
          description := payload.description
          URL := payload.URL
          updated_at := some now } st) := by
    rw [updateProduct, if_neg (by tauto), hget]
    simp [hkey]
  refine ⟨hupd, ?_, ?_⟩
  · rw [hupd]
    exact storageGet_insert_self _ _ _
  · intro k hk
    rw [hupd]
    exact storageGet_insert_ne _ _ _ _ hk

/-- Witness for C7: renaming the rated example product keeps its ratings
and creation time, changes the payload fields, stamps `updated_at := 9`,
and a second stored product is untouched. -/
theorem updateProduct_frame_witness :
    updateProduct 9 "p1" { name := "Stool", description := "Oak stool", URL := "http://x/2.png" }
        [("p1", ratedChair)] =
      (CallResult.ok
        { id := "p1", name := "Stool", description := "Oak stool",
          URL := "http://x/2.png", Ratings := [4, 2], created_at := 0,
          updated_at := some 9 },
       [("p1",
        { id := "p1", name := "Stool", description := "Oak stool",
          URL := "http://x/2.png", Ratings := [4, 2], created_at := 0,
          updated_at := some 9 })]) := by
  have h := (updateProduct_frame 9 "p1"
    { name := "Stool", description := "Oak stool", URL := "http://x/2.png" }
    [("p1", ratedChair)] ratedChair (by decide) (by decide)
    (by decide) (by decide) (by decide)).1
  simpa [ratedChair, chairProduct, storageInsert] using h

theorem storageGet_mem (st : Storage) (k : String) (p : Product)
    (h : storageGet st k = some p) : (k, p) ∈ st := by
  induction st with
  | nil => simp [storageGet] at h
  | cons head tail ih =>
    obtain ⟨k₁, v₁⟩ := head
    by_cases h1 : k = k₁
    · simp only [storageGet, if_pos h1, Option.some.injEq] at h
      simp [h1, h]
    · simp only [storageGet, if_neg h1] at h
      exact List.mem_cons_of_mem _ (ih h)

/-!  Preservation of the registry invariants by each operation. -/

theorem keysMatch_addProduct (newId : String) (now : ℕ)
    (payload : ProductPayload) (st : Storage) (h : KeysMatch st) :
    KeysMatch (addProduct newId now payload st).2 := by
  by_cases h1 : payload.name = "" ∨ payload.description = "" ∨ payload.URL = ""
  · simpa [addProduct, h1] using h
  · by_cases h2 : (storageValues st).any (fun p => p.name == payload.name) = true
    · simpa [addProduct, h1, h2] using h
    · have hst : (addProduct newId now payload st).2 =
          storageInsert newId
            ⟨newId, payload.name, payload.description, payload.URL, [], now,
              none⟩ st := by
        simp [addProduct, h1, h2]
      rw [hst]
      intro e he
      rcases mem_storageInsert _ _ _ _ he with he' | he'
      · rw [he']
      · exact h e he'

theorem keysMatch_updateProduct (now : ℕ) (id : String)
    (payload : ProductPayload) (st : Storage) (h : KeysMatch st) :
    KeysMatch (updateProduct now id payload st).2 := by
  by_cases h1 : payload.name = "" ∨ payload.description = "" ∨ payload.URL = ""
  · simpa [updateProduct, h1] using h
  · cases hget : storageGet st id with
    | none => simpa [updateProduct, h1, hget] using h
    | some product =>
      have hst : (updateProduct now id payload st).2 =
          storageInsert product.id
            { product with
              name := payload.name
              description := payload.description
              URL := payload.URL
              updated_at := some now } st := by
        simp [updateProduct, h1, hget]
      rw [hst]
      intro e he
      rcases mem_storageInsert _ _ _ _ he with he' | he'
      · rw [he']
      · exact h e he'

theorem keysMatch_rateProduct (now : ℕ) (id : String) (rating : ℚ)
    (st : Storage) (h : KeysMatch st) :
    KeysMatch (rateProduct now id rating st).2 := by
  by_cases hv : rating < 1 ∨ rating > 5
  · simpa [rateProduct, validateRating, hv] using h
  · cases hget : storageGet st id with
    | none => simpa [rateProduct, validateRating, hv, hget] using h
    | some product =>
      have hkey : product.id = id := h (id, product) (storageGet_mem _ _ _ hget)
      have hst : (rateProduct now id rating st).2 =
          storageInsert id
            { product with
              Ratings := product.Ratings ++ [rating]
              updated_at := some now } st := by
        simp [rateProduct, validateRating, hv, hget]
      rw [hst]
      intro e he
      rcases mem_storageInsert _ _ _ _ he with he' | he'
      · rw [he']
        exact hkey
      · exact h e he'

theorem keysMatch_deleteProduct (id : String) (st : Storage)
    (h : KeysMatch st) : KeysMatch (deleteProduct id st).2 := by
  cases hr : (storageRemove id st).1 with
  | none => simpa [deleteProduct, hr] using h
  | some p =>
    have hst : (deleteProduct id st).2 = (storageRemove id st).2 := by
      simp [deleteProduct, hr]
    rw [hst]
    intro e he
    exact h e (mem_storageRemove _ _ _ he)

theorem ratingsInRange_addProduct (newId : String) (now : ℕ)
    (payload : ProductPayload) (st : Storage) (h : RatingsInRange st) :
    RatingsInRange (addProduct newId now payload st).2 := by
  by_cases h1 : payload.name = "" ∨ payload.description = "" ∨ payload.URL = ""
  · simpa [addProduct, h1] using h
  · by_cases h2 : (storageValues st).any (fun p => p.name == payload.name) = true
    · simpa [addProduct, h1, h2] using h
    · have hst : (addProduct newId now payload st).2 =
          storageInsert newId
            ⟨newId, payload.name, payload.description, payload.URL, [], now,
              none⟩ st := by
        simp [addProduct, h1, h2]
      rw [hst]
      intro e he
      rcases mem_storageInsert _ _ _ _ he with he' | he'
      · rw [he']
        intro r hr
        simp at hr
      · exact h e he'

theorem ratingsInRange_updateProduct (now : ℕ) (id : String)
    (payload : ProductPayload) (st : Storage) (h : RatingsInRange st) :
    RatingsInRange (updateProduct now id payload st).2 := by
  by_cases h1 : payload.name = "" ∨ payload.description = "" ∨ payload.URL = ""
  · simpa [updateProduct, h1] using h
  · cases hget : storageGet st id with
    | none => simpa [updateProduct, h1, hget] using h
    | some product =>
      have hst : (updateProduct now id payload st).2 =
          storageInsert product.id
            { product with
              name := payload.name
              description := payload.description
              URL := payload.URL
              updated_at := some now } st := by
        simp [updateProduct, h1, hget]
      rw [hst]
      intro e he
      rcases mem_storageInsert _ _ _ _ he with he' | he'
      · rw [he']
        intro r hr
        exact h (id, product) (storageGet_mem _ _ _ hget) r hr
      · exact h e he'

theorem ratingsInRange_rateProduct (now : ℕ) (id : String) (rating : ℚ)
    (st : Storage) (h : RatingsInRange st) :
    RatingsInRange (rateProduct now id rating st).2 := by
  by_cases hv : rating < 1 ∨ rating > 5
  · simpa [rateProduct, validateRating, hv] using h
  · cases hget : storageGet st id with
    | none => simpa [rateProduct, validateRating, hv, hget] using h
    | some product =>
      push_neg at hv
      have hst : (rateProduct now id rating st).2 =
          storageInsert id
            { product with
              Ratings := product.Ratings ++ [rating]
              updated_at := some now } st := by
        simp [rateProduct, validateRating, not_or.mpr ⟨not_lt.mpr hv.1, not_lt.mpr hv.2⟩, hget]
      rw [hst]
      intro e he
      rcases mem_storageInsert _ _ _ _ he with he' | he'
      · rw [he']
        intro r hr
        simp only [List.mem_append, List.mem_singleton] at hr
        rcases hr with hr | hr
        · exact h (id, product) (storageGet_mem _ _ _ hget) r hr
        · subst hr
          exact ⟨hv.1, hv.2⟩
      · exact h e he'

theorem ratingsInRange_deleteProduct (id : String) (st : Storage)
    (h : RatingsInRange st) : RatingsInRange (deleteProduct id st).2 := by
  cases hr : (storageRemove id st).1 with
  | none => simpa [deleteProduct, hr] using h
  | some p =>
    have hst : (deleteProduct id st).2 = (storageRemove id st).2 := by
      simp [deleteProduct, hr]
    rw [hst]
    intro e he
    exact h e (mem_storageRemove _ _ _ he)

/-- C10: in every reachable registry state the storage key of every entry
equals the `id` field of the product stored under it, and every operation
preserves this from any state that satisfies it. -/
theorem storage_key_matches_id_invariant :
    (∀ st : Storage, Reachable st → KeysMatch st) ∧
    (∀ st : Storage, KeysMatch st →
      (∀ (newId : String) (now : ℕ) (payload : ProductPayload),
        KeysMatch (addProduct newId now payload st).2) ∧
      (∀ (now : ℕ) (id : String) (payload : ProductPayload),
        KeysMatch (updateProduct now id payload st).2) ∧
      (∀ (now : ℕ) (id : String) (rating : ℚ),
        KeysMatch (rateProduct now id rating st).2) ∧
      (∀ id : String, KeysMatch (deleteProduct id st).2)) := by
  constructor
  · intro st h
    induction h with
    | init => intro e he; simp at he
    | add newId now payload st' _ ih => exact keysMatch_addProduct _ _ _ _ ih
    | update now id payload st' _ ih => exact keysMatch_updateProduct _ _ _ _ ih
    | rate now id rating st' _ ih => exact keysMatch_rateProduct _ _ _ _ ih
    | del id st' _ ih => exact keysMatch_deleteProduct _ _ ih
  · intro st h
    exact ⟨fun newId now payload => keysMatch_addProduct newId now payload st h,
      fun now id payload => keysMatch_updateProduct now id payload st h,
      fun now id rating => keysMatch_rateProduct now id rating st h,
      fun id => keysMatch_deleteProduct id st h⟩

/-- Witness for C10: the invariant holds of the state reached by adding the
example payload to the empty registry. -/
theorem storage_key_matches_id_invariant_witness :
    KeysMatch ((addProduct "p1" 0 chairPayload []).2) :=
  storage_key_matches_id_invariant.1 _
    (Reachable.add "p1" 0 chairPayload [] Reachable.init)

/-- C5 (amended): in every reachable registry state, every stored rating
lies in the inclusive range [1,5]; integrality, however, is not enforced by
the code (see the counterexample). -/
theorem reachable_ratings_in_range (st : Storage) (h : Reachable st) :
    RatingsInRange st := by
  induction h with
  | init => intro e he; simp at he
  | add newId now payload st' _ ih => exact ratingsInRange_addProduct _ _ _ _ ih
  | update now id payload st' _ ih => exact ratingsInRange_updateProduct _ _ _ _ ih
  | rate now id rating st' _ ih => exact ratingsInRange_rateProduct _ _ _ _ ih
  | del id st' _ ih => exact ratingsInRange_deleteProduct _ _ ih

/-- Witness for C5: the range invariant at the reachable state obtained by
adding the example product and rating it 4. -/
theorem reachable_ratings_in_range_witness :
    RatingsInRange ((rateProduct 1 "p1" 4
      ((addProduct "p1" 0 chairPayload []).2)).2) :=
  reachable_ratings_in_range _
    (Reachable.rate 1 "p1" 4 _ (Reachable.add "p1" 0 chairPayload [] Reachable.init))

/-- Counterexample to C5 as stated: `validateRating` checks only the range
[1,5], not integrality, so rating the example product with 5/2 (JavaScript
`2.5`) succeeds and a reachable state stores the non-integer rating 5/2. -/
theorem ratings_integer_invariant_cex :
    Reachable ((rateProduct 1 "p1" (5 / 2)
      ((addProduct "p1" 0 chairPayload []).2)).2) ∧
    ¬ RatingsIntegerInRange ((rateProduct 1 "p1" (5 / 2)
      ((addProduct "p1" 0 chairPayload []).2)).2) := by
  constructor
  · exact Reachable.rate 1 "p1" (5 / 2) _
      (Reachable.add "p1" 0 chairPayload [] Reachable.init)
  · intro hcontra
    have hstate : (rateProduct 1 "p1" (5 / 2)
        ((addProduct "p1" 0 chairPayload []).2)).2 =
        [("p1", { chairProduct with Ratings := [5 / 2], updated_at := some 1 })] := by
      norm_num [addProduct, chairPayload, storageValues, storageInsert,
        rateProduct, validateRating, storageGet, chairProduct]
    rw [hstate] at hcontra
    have h := hcontra
      ("p1", { chairProduct with Ratings := [5 / 2], updated_at := some 1 })
      (by simp) (5 / 2) (by simp)
    obtain ⟨⟨n, hn⟩, -, -⟩ := h
    have h2 : (5 : ℚ) = 2 * (n : ℚ) := by linarith
    have h3 : (5 : ℤ) = 2 * n := by exact_mod_cast h2
    omega
